import Mathlib

/-!
Verification of the geoio raster access library (src/geoio/base.py) against its
natural-language specification.  The Python source is shallowly embedded below:
pure numeric code becomes functions over `ℚ` and `ℤ`, fallible code returns
`Except`, numpy arrays become lists or index functions, and the generator loops
become explicit recursive list builders.  Every definition is translated from
the source file; line numbers in the doc comments refer to src/geoio/base.py.
-/

set_option autoImplicit false

deriving instance DecidableEq for Except

namespace Geoio

/-- Six-coefficient affine geo-transform `gm[0]..gm[5]` as reported by the
raster handle (`self.meta.geo_transform`), mapping pixel `(x, y)` to projected
`(X, Y)` by `X = g0 + g1*x + g2*y`, `Y = g3 + g4*x + g5*y`. -/
structure GeoTransform where
  g0 : ℚ
  g1 : ℚ
  g2 : ℚ
  g3 : ℚ
  g4 : ℚ
  g5 : ℚ
deriving DecidableEq

/-- Scalar forward map for the projected x coordinate, from `raster_to_proj`
(base.py line 857): `projx = gm[0] + gm[1] * x + gm[2] * y`. -/
def fwdX (gm : GeoTransform) (x y : ℚ) : ℚ := gm.g0 + gm.g1 * x + gm.g2 * y

/-- Scalar forward map for the projected y coordinate, from `raster_to_proj`
(base.py line 858): `projy = gm[3] + gm[4] * x + gm[5] * y`. -/
def fwdY (gm : GeoTransform) (x y : ℚ) : ℚ := gm.g3 + gm.g4 * x + gm.g5 * y

/-- Scalar inverse map for the raster x coordinate, from `proj_to_raster`
(base.py lines 789-790), transcribed exactly as written there:
`x = (gm[5]*(projx - gm[0]) - gm[2]*(projy - gm[3])) / (gm[5]*gm[1] + gm[4]*gm[2])`.
Note the denominator uses a `+` where the true inverse of the forward map has
`gm[1]*gm[5] - gm[2]*gm[4]`. -/
def invX (gm : GeoTransform) (projx projy : ℚ) : ℚ :=
  (gm.g5 * (projx - gm.g0) - gm.g2 * (projy - gm.g3)) / (gm.g5 * gm.g1 + gm.g4 * gm.g2)

/-- Scalar inverse map for the raster y coordinate, from `proj_to_raster`
(base.py line 791): `y = (projy - gm[3] - x * gm[4]) / gm[5]` with `x` the value
computed by `invX`. -/
def invY (gm : GeoTransform) (projx projy : ℚ) : ℚ :=
  (projy - gm.g3 - invX gm projx projy * gm.g4) / gm.g5

/-- Input/output container of `proj_to_raster` and `raster_to_proj`.  The
source accepts a scalar (int/float), a python list, a python tuple or a 1-d
numpy array for each coordinate (base.py lines 770-779 and 838-847). -/
inductive Coord where
  | scalar (v : ℚ)
  | pylist (vs : List ℚ)
  | pytup (vs : List ℚ)
  | nparr (vs : List ℚ)
deriving DecidableEq

/-- The `intype` tag computed in the source (1 = scalar, 2 = list, 3 = tuple,
4 = ndarray); the source's `type(projx) != type(projy)` guard compares these
constructors. -/
def coordCtor : Coord → ℕ
  | .scalar _ => 1
  | .pylist _ => 2
  | .pytup _ => 3
  | .nparr _ => 4

/-- Container shape of a coordinate argument: the constructor together with
the element count for the sequence containers. -/
inductive CShape where
  | scal
  | lst (n : ℕ)
  | tup (n : ℕ)
  | arr (n : ℕ)
deriving DecidableEq

/-- Container shape of a `Coord` value. -/
def cshape : Coord → CShape
  | .scalar _ => .scal
  | .pylist vs => .lst vs.length
  | .pytup vs => .tup vs.length
  | .nparr vs => .arr vs.length

/-- Errors that the coordinate conversion methods can raise.  `typeMismatch` is
the explicit `ValueError` of base.py lines 762-765 / 830-833 (the spec's
`ShapeMismatch`); `broadcastMismatch` is the `ValueError` numpy raises when the
two 1-d operands cannot be broadcast together. -/
inductive CoordErr where
  | typeMismatch
  | broadcastMismatch
deriving DecidableEq

/-- Numpy 1-d broadcasting of the two coordinate arrays, as performed by the
arithmetic in base.py lines 789-791 / 857-858 after `np.asarray`: equal lengths
pair elementwise; a length-1 operand is stretched to the other's length; any
other combination raises. -/
def bc1 (vs ws : List ℚ) : Option (List (ℚ × ℚ)) :=
  if vs.length = ws.length then some (vs.zip ws)
  else if vs.length = 1 then some (ws.map fun b => (vs.headI, b))
  else if ws.length = 1 then some (vs.map fun a => (a, ws.headI))
  else none

/-- Common body of `proj_to_raster` and `raster_to_proj`: reject mixed input
container types (`type(x) != type(y)`), convert to arrays, apply the scalar
maps elementwise under numpy broadcasting, and convert back to the input
container (base.py lines 761-801 and 829-868). -/
def coordOp (f g : ℚ → ℚ → ℚ) (cx cy : Coord) : Except CoordErr (Coord × Coord) :=
  match cx, cy with
  | .scalar a, .scalar b => .ok (.scalar (f a b), .scalar (g a b))
  | .pylist vs, .pylist ws =>
      match bc1 vs ws with
      | some ps => .ok (.pylist (ps.map fun p => f p.1 p.2),
                        .pylist (ps.map fun p => g p.1 p.2))
      | none => .error .broadcastMismatch
  | .pytup vs, .pytup ws =>
      match bc1 vs ws with
      | some ps => .ok (.pytup (ps.map fun p => f p.1 p.2),
                        .pytup (ps.map fun p => g p.1 p.2))
      | none => .error .broadcastMismatch
  | .nparr vs, .nparr ws =>
      match bc1 vs ws with
      | some ps => .ok (.nparr (ps.map fun p => f p.1 p.2),
                        .nparr (ps.map fun p => g p.1 p.2))
      | none => .error .broadcastMismatch
  | _, _ => .error .typeMismatch

/-- GeoImage.proj_to_raster (base.py lines 736-801): convert projected
coordinates to raster pixel coordinates. -/
def proj_to_raster (gm : GeoTransform) (projx projy : Coord) :
    Except CoordErr (Coord × Coord) :=
  coordOp (invX gm) (invY gm) projx projy

/-- GeoImage.raster_to_proj (base.py lines 804-868): convert raster pixel
coordinates to projected coordinates. -/
def raster_to_proj (gm : GeoTransform) (x y : Coord) :
    Except CoordErr (Coord × Coord) :=
  coordOp (fwdX gm) (fwdY gm) x y

/-- A rotated but invertible geo-transform: forward determinant
`g1*g5 - g2*g4 = 1*1 - 2*1 = -1 ≠ 0`. -/
def gmRot : GeoTransform := ⟨0, 1, 2, 0, 1, 1⟩

/-- An axis-aligned identity geo-transform. -/
def gmId : GeoTransform := ⟨0, 1, 0, 0, 0, 1⟩

lemma coordOp_shape (f g : ℚ → ℚ → ℚ) (cx cy : Coord) (h : cshape cx = cshape cy) :
    ∃ rx ry, coordOp f g cx cy = .ok (rx, ry) ∧
      cshape rx = cshape cx ∧ cshape ry = cshape cy := by
  cases cx <;> cases cy <;> simp [cshape] at h ⊢ <;>
    simp [coordOp, bc1, h, cshape, List.length_zip, min_self] <;>
    exact ⟨_, _, ⟨rfl, rfl⟩, by simp [List.length_zip, h, min_self],
           by simp [List.length_zip, h, min_self]⟩

lemma coordOp_mixed (f g : ℚ → ℚ → ℚ) (cx cy : Coord) (h : coordCtor cx ≠ coordCtor cy) :
    coordOp f g cx cy = .error .typeMismatch := by
  cases cx <;> cases cy <;> simp [coordCtor] at h ⊢ <;> rfl

/-- C1: the pixel-to-projected-to-pixel round trip is NOT the identity for
every geo-transform.  With the rotated transform `(0,1,2,0,1,1)`, pixel
`(1, 0)` maps forward to projected `(1, 1)`, but `proj_to_raster` maps that
back to `(-1/3, 4/3)` — off by more than a pixel, far beyond floating-point
tolerance.  The cause: `proj_to_raster`'s denominator `gm[5]*gm[1] + gm[4]*gm[2]`
(base.py line 790) has the wrong sign; the inverse of the documented forward
map needs `gm[1]*gm[5] - gm[2]*gm[4]`.  The two agree exactly when
`gm[4]*gm[2] = 0` (axis-aligned north-up images), which is why the slip
survives in practice. -/
theorem proj_roundtrip_not_inverse :
    raster_to_proj gmRot (.scalar 1) (.scalar 0) = .ok (.scalar 1, .scalar 1) ∧
    proj_to_raster gmRot (.scalar 1) (.scalar 1) =
      .ok (.scalar (-1/3), .scalar (4/3)) ∧
    ((-1 : ℚ)/3, (4 : ℚ)/3) ≠ ((1 : ℚ), (0 : ℚ)) := by
  refine ⟨?_, ?_, by norm_num⟩
  all_goals simp [raster_to_proj, proj_to_raster, coordOp, fwdX, fwdY, invX, invY, gmRot]
  all_goals norm_num

/-- C7 counterexample: two coordinate inputs of the SAME container type but
DIFFERENT container shapes (a list of length 2 and a list of length 1) do not
fail at all: numpy broadcasting stretches the length-1 operand, and the call
returns successfully with the second output's shape differing from its input's
shape. -/
theorem coord_broadcast_cex :
    proj_to_raster gmId (.pylist [1, 2]) (.pylist [5]) =
      .ok (.pylist [1, 2], .pylist [5, 5]) ∧
    cshape (Coord.pylist [5, 5]) ≠ cshape (Coord.pylist [5]) := by
  constructor
  · simp [proj_to_raster, coordOp, bc1, invX, invY, gmId]
  · simp [cshape]

/-- C7 (amended): `proj_to_raster` and `raster_to_proj` accept scalar, list,
tuple, or 1-d array inputs; when the two coordinates have the same container
shape the result comes back in that same container shape, and mixed container
TYPES fail with the ShapeMismatch `ValueError`.  Same-type inputs of different
lengths are not rejected when one has length 1: numpy broadcasting stretches it
(see the counterexample). -/
theorem coord_container_amended (gm : GeoTransform) (px py : Coord) :
    (cshape px = cshape py →
      ∃ rx ry, proj_to_raster gm px py = .ok (rx, ry) ∧
        cshape rx = cshape px ∧ cshape ry = cshape py) ∧
    (coordCtor px ≠ coordCtor py →
      proj_to_raster gm px py = .error .typeMismatch) ∧
    (cshape px = cshape py →
      ∃ rx ry, raster_to_proj gm px py = .ok (rx, ry) ∧
        cshape rx = cshape px ∧ cshape ry = cshape py) ∧
    (coordCtor px ≠ coordCtor py →
      raster_to_proj gm px py = .error .typeMismatch) := by
  refine ⟨fun h => ?_, fun h => ?_, fun h => ?_, fun h => ?_⟩
  · exact coordOp_shape _ _ _ _ h
  · exact coordOp_mixed _ _ _ _ h
  · exact coordOp_shape _ _ _ _ h
  · exact coordOp_mixed _ _ _ _ h

/-- C7 witness: the amended theorem applied at concrete inputs: equal-shape
lists are accepted and shape-preserved, and a tuple mixed with a list is
rejected with the ShapeMismatch error. -/
theorem coord_container_amended_witness :
    (∃ rx ry,
      proj_to_raster gmId (.pylist [1, 2]) (.pylist [3, 4]) = .ok (rx, ry) ∧
        cshape rx = cshape (Coord.pylist [1, 2]) ∧
        cshape ry = cshape (Coord.pylist [3, 4])) ∧
    raster_to_proj gmId (.pytup [1]) (.pylist [2]) = .error .typeMismatch := by
  refine ⟨(coord_container_amended gmId (.pylist [1, 2]) (.pylist [3, 4])).1
      (by simp [cshape]), ?_⟩
  exact (coord_container_amended gmId (.pytup [1]) (.pylist [2])).2.2.2
    (by simp [coordCtor])

/-- Errors of the windowed-read path.  `overlap` is `OverlapError` (base.py
lines 36-41), `readFailure` is a GDAL `ReadAsArray` failure surfacing from the
external decoder (e.g. a non-positive window size), `valueErr` is `ValueError`
from argument validation. -/
inductive GdErr where
  | overlap
  | readFailure
  | valueErr
deriving DecidableEq

/-- Left/top clip of the window offset, from base.py lines 969-977:
`if xoff < 0: ...; xoff = 0`. -/
def clipLowOff (x : ℤ) : ℤ := if x < 0 then 0 else x

/-- Left/top clip of the window size, from base.py lines 969-977:
`if xoff < 0: win_xsize = win_xsize + xoff`. -/
def clipLowSize (x w : ℤ) : ℤ := if x < 0 then w + x else w

/-- Pixels clipped away on the low side, `abs(np_xoff_buff)` of base.py lines
964-977 and 1072-1075. -/
def padLow (x : ℤ) : ℤ := if x < 0 then -x else 0

/-- Pixels clipped away on the high side, `np_xlim_buff = xpos - xlim` when
`xpos > xlim` (base.py lines 979-989). -/
def padHigh (lim pos : ℤ) : ℤ := if pos > lim then pos - lim else 0

/-- Right/bottom clip of the window size, from base.py lines 984-989:
`win_xsize = win_xsize - np_xlim_buff`. -/
def clipHighSize (lim pos w : ℤ) : ℤ := w - padHigh lim pos

/-- The out-of-bounds handling of `get_data` (base.py lines 961-989): clip the
requested window `(x, y, w, h)` to the raster bounds `W × H` and record how
many pixels were cut on each side.  Returns
`((xoff, yoff, win_xsize, win_ysize), (padLeft, padRight, padTop, padBottom))`. -/
def resolveWindow (W H x y w h : ℤ) : (ℤ × ℤ × ℤ × ℤ) × (ℤ × ℤ × ℤ × ℤ) :=
  ((clipLowOff x, clipLowOff y,
    clipHighSize W (clipLowOff x + clipLowSize x w) (clipLowSize x w),
    clipHighSize H (clipLowOff y + clipLowSize y h) (clipLowSize y h)),
   (padLow x, padHigh W (clipLowOff x + clipLowSize x w),
    padLow y, padHigh H (clipLowOff y + clipLowSize y h)))

lemma resolveWindow_eq (W H x y w h : ℤ) :
    resolveWindow W H x y w h =
      ((max x 0, max y 0, min (x + w) W - max x 0, min (y + h) H - max y 0),
       (max (-x) 0, max (x + w - W) 0, max (-y) 0, max (y + h - H) 0)) := by
  simp only [resolveWindow, clipLowOff, clipLowSize, clipHighSize, padLow, padHigh,
    Prod.mk.injEq]
  split_ifs <;> omega

/-- The buffer expansion of `get_data` (base.py lines 942-959): a one-element
buffer is broadcast to x and y, a two-element buffer gives them separately, and
the window grows by the buffer on every side.  An empty buffer list is falsy in
python and leaves the window unchanged; longer lists raise `ValueError`. -/
def applyBuffer (window : ℤ × ℤ × ℤ × ℤ) (buffer : Option (List ℤ)) :
    Except GdErr (ℤ × ℤ × ℤ × ℤ) :=
  match window, buffer with
  | w, none => .ok w
  | w, some [] => .ok w
  | (x, y, w, h), some [b] => .ok (x - b, y - b, w + 2 * b, h + 2 * b)
  | (x, y, w, h), some [bx, bY] => .ok (x - bx, y - bY, w + 2 * bx, h + 2 * bY)
  | _, some _ => .error .valueErr

/-- A pixel block as produced by one `get_data` call: gdal band order
`(bands, rows, cols)` (base.py lines 1015-1021); `val i r c` is the element at
band slot `i`, row `r`, column `c`. -/
structure Block where
  nb : ℕ
  rows : ℤ
  cols : ℤ
  val : ℕ → ℤ → ℤ → ℚ

/-- The per-band `ReadAsArray` loop of base.py lines 1004-1021: each requested
band is read for the clipped window, so element `(i, r, c)` is the underlying
pixel of band `bands[i]` at absolute raster position `(yoff + r, xoff + c)`.
The pixel source `pix b row col` abstracts the external decoder's per-band
read. -/
def readClipped (pix : ℕ → ℤ → ℤ → ℚ) (bands : List ℕ) (x y w h : ℤ) : Block :=
  ⟨bands.length, h, w, fun i r c => pix (bands.getD i 0) (y + r) (x + c)⟩

/-- The `np.pad(data, pad_tuples, constant_values=0)` step of base.py lines
1072-1081: re-expand the clipped block to the requested size with zeros. -/
def padBlock (b : Block) (pl pr pt pb : ℤ) : Block :=
  ⟨b.nb, b.rows + pt + pb, b.cols + pl + pr,
   fun i r c =>
     if pt ≤ r ∧ r < pt + b.rows ∧ pl ≤ c ∧ c < pl + b.cols then
       b.val i (r - pt) (c - pl)
     else 0⟩

/-- The `np.pad(data.mask, pad_tuples, constant_values=1)` step of base.py
line 1079: the padded border of the mask is constant `True` (excluded). -/
def padMaskFun (m : ℕ → ℤ → ℤ → Bool) (rows cols pl pt : ℤ) : ℕ → ℤ → ℤ → Bool :=
  fun i r c =>
    if pt ≤ r ∧ r < pt + rows ∧ pl ≤ c ∧ c < pl + cols then
      m i (r - pt) (c - pl)
    else true

/-- Masking mode of `get_data`: no mask, a geometry mask (the externally
rasterized burn grid of base.py lines 1026-1063, `burn r c = true` where the
geometry covers the pixel; the stored mask is its complement), or the
mask-by-nonzero mode of base.py lines 1065-1068. -/
inductive MaskMode where
  | nomask
  | geomBurn (burn : ℤ → ℤ → Bool)
  | nonzero

/-- GeoImage.get_data with an explicit window (base.py lines 871-1094, the
window branch): apply the buffer, clip to the raster bounds, read the clipped
window per band, optionally attach a mask, and zero-pad data (and one-pad
mask) back to the requested size.  A non-positive clipped size makes the
external `ReadAsArray` fail, surfaced as `readFailure`; no `OverlapError` is
ever raised on this path. -/
def get_data (W H : ℤ) (pix : ℕ → ℤ → ℤ → ℚ) (bands : List ℕ)
    (window : ℤ × ℤ × ℤ × ℤ) (buffer : Option (List ℤ)) (mode : MaskMode) :
    Except GdErr (Block × Option (ℕ → ℤ → ℤ → Bool)) :=
  match applyBuffer window buffer with
  | .error e => .error e
  | .ok (x, y, w, h) =>
    match resolveWindow W H x y w h with
    | ((x1, y1, w1, h1), (pl, pr, pt, pb)) =>
      if w1 ≤ 0 ∨ h1 ≤ 0 then .error .readFailure
      else
        let inner := readClipped pix bands x1 y1 w1 h1
        match mode with
        | .nomask => .ok (padBlock inner pl pr pt pb, none)
        | .geomBurn burn =>
            .ok (padBlock inner pl pr pt pb,
                 some (padMaskFun (fun _ r c => ! burn r c) h1 w1 pl pt))
        | .nonzero =>
            .ok (padBlock inner pl pr pt pb,
                 some (padMaskFun (fun i r c => decide (inner.val i r c = 0)) h1 w1 pl pt))

/-- The `OverlapError` test of `_extent_to_window` (base.py lines 726-731):
`(xoff + win_xsize <= 0) or (yoff + win_ysize <= 0) or (xoff > shape[1]) or
(yoff > shape[2])`. -/
def extentCheckFails (W H xoff yoff w h : ℤ) : Bool :=
  decide (xoff + w ≤ 0) || decide (yoff + h ≤ 0) || decide (W < xoff) || decide (H < yoff)

/-- GeoImage._extent_to_window (base.py lines 677-733): convert a projected
extent `(minX, maxX, minY, maxY)` to a pixel window by transforming the
upper-left and lower-right corners with `proj_to_raster`, flooring the minima
and ceiling the maxima, then raise `OverlapError` when `extentCheckFails`. -/
def extent_to_window (gm : GeoTransform) (W H : ℤ) (extent : ℚ × ℚ × ℚ × ℚ) :
    Except GdErr (ℤ × ℤ × ℤ × ℤ) :=
  match extent with
  | (minX, maxX, minY, maxY) =>
    match proj_to_raster gm (.pytup [minX, maxX]) (.pytup [maxY, minY]) with
    | .ok (.pytup [xA, xB], .pytup [yA, yB]) =>
        let xoff := ⌊min xA xB⌋
        let yoff := ⌊min yA yB⌋
        let w := ⌈max xA xB⌉ - xoff
        let h := ⌈max yA yB⌉ - yoff
        if extentCheckFails W H xoff yoff w h then .error .overlap
        else .ok (xoff, yoff, w, h)
    | _ => .error .valueErr

/-- GeoImage.get_data with a geometry (base.py lines 927-933): the geometry's
envelope, already in image space, is converted to a window by
`_extent_to_window`, then the windowed read proceeds as usual. -/
def get_data_geom (gm : GeoTransform) (W H : ℤ) (pix : ℕ → ℤ → ℤ → ℚ)
    (bands : List ℕ) (extent : ℚ × ℚ × ℚ × ℚ) (buffer : Option (List ℤ))
    (mode : MaskMode) : Except GdErr (Block × Option (ℕ → ℤ → ℤ → Bool)) :=
  match extent_to_window gm W H extent with
  | .error e => .error e
  | .ok wdw => get_data W H pix bands wdw buffer mode

/-- Claim C3's notion of a window with empty clipped intersection, written
from the claim's own words: after clipping to `[0,W) × [0,H)` the window
`(x, y, w, h)` covers no pixel. -/
def clippedEmpty (W H x y w h : ℤ) : Prop :=
  min (x + w) W ≤ max x 0 ∨ min (y + h) H ≤ max y 0

lemma applyBuffer_error (wdw : ℤ × ℤ × ℤ × ℤ) (buffer : Option (List ℤ)) (e : GdErr)
    (h : applyBuffer wdw buffer = .error e) : e = .valueErr := by
  unfold applyBuffer at h
  split at h <;> simp_all

lemma padBlock_pad (b : Block) (pl pr pt pb : ℤ) (i : ℕ) (r c : ℤ)
    (hC : ¬(pt ≤ r ∧ r < pt + b.rows ∧ pl ≤ c ∧ c < pl + b.cols)) :
    (padBlock b pl pr pt pb).val i r c = 0 := if_neg hC

lemma padMaskFun_pad (m : ℕ → ℤ → ℤ → Bool) (rows cols pl pt : ℤ) (i : ℕ) (r c : ℤ)
    (hC : ¬(pt ≤ r ∧ r < pt + rows ∧ pl ≤ c ∧ c < pl + cols)) :
    padMaskFun m rows cols pl pt i r c = true := if_neg hC

lemma get_data_buffer2 (W H : ℤ) (pix : ℕ → ℤ → ℤ → ℚ) (bands : List ℕ)
    (x y w h bx bY : ℤ) (mode : MaskMode) :
    get_data W H pix bands (x, y, w, h) (some [bx, bY]) mode =
      get_data W H pix bands (x - bx, y - bY, w + 2 * bx, h + 2 * bY) none mode := rfl

lemma get_data_err (W H x y w h : ℤ) (pix : ℕ → ℤ → ℤ → ℚ) (bands : List ℕ)
    (mode : MaskMode)
    (hwh : min (x + w) W - max x 0 ≤ 0 ∨ min (y + h) H - max y 0 ≤ 0) :
    get_data W H pix bands (x, y, w, h) none mode = .error .readFailure := by
  simp only [get_data, applyBuffer, resolveWindow_eq]
  rw [if_pos hwh]

lemma get_data_ok (W H x y w h : ℤ) (pix : ℕ → ℤ → ℤ → ℚ) (bands : List ℕ)
    (mode : MaskMode)
    (hw : 0 < min (x + w) W - max x 0) (hh : 0 < min (y + h) H - max y 0) :
    get_data W H pix bands (x, y, w, h) none mode =
      .ok (padBlock (readClipped pix bands (max x 0) (max y 0)
            (min (x + w) W - max x 0) (min (y + h) H - max y 0))
          (max (-x) 0) (max (x + w - W) 0) (max (-y) 0) (max (y + h - H) 0),
        match mode with
        | .nomask => none
        | .geomBurn burn =>
            some (padMaskFun (fun _ r c => ! burn r c)
              (min (y + h) H - max y 0) (min (x + w) W - max x 0)
              (max (-x) 0) (max (-y) 0))
        | .nonzero =>
            some (padMaskFun (fun i r c =>
                decide ((readClipped pix bands (max x 0) (max y 0)
                  (min (x + w) W - max x 0) (min (y + h) H - max y 0)).val i r c = 0))
              (min (y + h) H - max y 0) (min (x + w) W - max x 0)
              (max (-x) 0) (max (-y) 0))) := by
  simp only [get_data, applyBuffer, resolveWindow_eq]
  rw [if_neg (by omega)]
  cases mode <;> rfl

lemma get_data_geom_ok (gm : GeoTransform) (W H : ℤ) (pix : ℕ → ℤ → ℤ → ℚ)
    (bands : List ℕ) (extent : ℚ × ℚ × ℚ × ℚ) (buffer : Option (List ℤ))
    (mode : MaskMode) (wdw : ℤ × ℤ × ℤ × ℤ)
    (h : extent_to_window gm W H extent = .ok wdw) :
    get_data_geom gm W H pix bands extent buffer mode =
      get_data W H pix bands wdw buffer mode := by
  unfold get_data_geom
  rw [h]

lemma get_data_nomask_spec (W H x y w h : ℤ) (pix : ℕ → ℤ → ℤ → ℚ)
    (bands : List ℕ)
    (hx : max x 0 < min (x + w) W) (hy : max y 0 < min (y + h) H) :
    ∃ bl, get_data W H pix bands (x, y, w, h) none .nomask = .ok (bl, none) ∧
      bl.nb = bands.length ∧ bl.rows = h ∧ bl.cols = w ∧
      ∀ i r c, 0 ≤ r → r < h → 0 ≤ c → c < w →
        bl.val i r c =
          if 0 ≤ y + r ∧ y + r < H ∧ 0 ≤ x + c ∧ x + c < W
          then pix (bands.getD i 0) (y + r) (x + c)
          else 0 := by
  have hok := get_data_ok W H x y w h pix bands .nomask (by omega) (by omega)
  refine ⟨_, hok, rfl, ?_, ?_, ?_⟩
  · simp only [padBlock, readClipped]
    omega
  · simp only [padBlock, readClipped]
    omega
  · intro i r c hr0 hr hc0 hc
    simp only [padBlock, readClipped]
    by_cases hin : 0 ≤ y + r ∧ y + r < H ∧ 0 ≤ x + c ∧ x + c < W
    · rw [if_pos (by omega), if_pos hin]
      rw [show max y 0 + (r - max (-y) 0) = y + r by omega,
          show max x 0 + (c - max (-x) 0) = x + c by omega]
    · rw [if_neg (by omega), if_neg hin]

/-- C3 counterexample: the raster is `100 × 100`; the geometry envelope
`(minX, maxX, minY, maxY) = (100, 105, 0, 5)` under the identity transform
gives the pixel window `(100, 0, 5, 5)`, whose clipped intersection with the
raster is empty (it starts exactly at the right edge).  The claim says such a
request raises `OverlapError`; in the code the `xoff > shape` test uses a
strict comparison, so no `OverlapError` is raised — the request proceeds to a
zero-size read that fails in the external reader instead. -/
theorem overlap_check_misses_edge_cex :
    extent_to_window gmId 100 100 (100, 105, 0, 5) = .ok (100, 0, 5, 5) ∧
    clippedEmpty 100 100 100 0 5 5 ∧
    get_data_geom gmId 100 100 (fun _ _ _ => 0) [1] (100, 105, 0, 5) none .nomask =
      .error .readFailure := by
  have h1 : extent_to_window gmId 100 100 (100, 105, 0, 5) = .ok (100, 0, 5, 5) := by
    simp only [extent_to_window, proj_to_raster, coordOp, bc1, invX, invY, gmId]
    norm_num [extentCheckFails]
  refine ⟨h1, by simp [clippedEmpty], ?_⟩
  rw [get_data_geom_ok _ _ _ _ _ _ _ _ _ h1]
  exact get_data_err 100 100 100 0 5 5 (fun _ _ _ => 0) [1] .nomask (by omega)

/-- C3 (amended): `OverlapError` comes only from the geometry-envelope path,
where the test `xoff + w <= 0 or yoff + h <= 0 or xoff > W or yoff > H` fires
only on windows whose clipped intersection is genuinely empty and never on a
window sharing at least one pixel with the raster; it misses empty windows
whose left/top offset equals the raster dimension exactly (and zero-size
windows at interior offsets).  Explicit-window requests are never
overlap-checked at all: `get_data` with a window cannot return `OverlapError`. -/
theorem overlap_check_amended (W H x y w h : ℤ) :
    (extentCheckFails W H x y w h = true → clippedEmpty W H x y w h) ∧
    (∀ p q : ℤ, 0 ≤ p → p < W → 0 ≤ q → q < H →
      x ≤ p → p < x + w → y ≤ q → q < y + h →
      extentCheckFails W H x y w h = false) ∧
    (∀ (pix : ℕ → ℤ → ℤ → ℚ) (bands : List ℕ) (window : ℤ × ℤ × ℤ × ℤ)
      (buffer : Option (List ℤ)) (mode : MaskMode),
      get_data W H pix bands window buffer mode ≠ .error .overlap) := by
  refine ⟨?_, ?_, ?_⟩
  · intro hfail
    simp only [extentCheckFails, Bool.or_eq_true, decide_eq_true_eq] at hfail
    simp only [clippedEmpty]
    omega
  · intro p q hp0 hpW hq0 hqH hxp hpxw hyq hqyh
    simp only [extentCheckFails, Bool.or_eq_false_iff, decide_eq_false_iff_not]
    omega
  · intro pix bands window buffer mode
    unfold get_data
    cases habuf : applyBuffer window buffer with
    | error e =>
      have he := applyBuffer_error window buffer e habuf
      subst he
      simp
    | ok wdw =>
      obtain ⟨x1, y1, w1, h1⟩ := wdw
      rcases hres : resolveWindow W H x1 y1 w1 h1 with ⟨⟨x2, y2, w2, h2⟩, pl, pr, pt, pb⟩
      simp only [hres]
      split
      · simp
      · cases mode <;> simp

/-- C3 witness: the amended theorem applied concretely: the window
`(-3, -3, 10, 10)` shares pixel `(0, 0)` with a `100 × 100` raster, so the
envelope check does not fire; the window `(-20, 0, 10, 10)` makes the check
fire and its clipped intersection is indeed empty. -/
theorem overlap_check_amended_witness :
    extentCheckFails 100 100 (-3) (-3) 10 10 = false ∧
    clippedEmpty 100 100 (-20) 0 10 10 :=
  ⟨(overlap_check_amended 100 100 (-3) (-3) 10 10).2.1 0 0 (by decide) (by decide)
      (by decide) (by decide) (by decide) (by decide) (by decide) (by decide),
   (overlap_check_amended 100 100 (-20) 0 10 10).1 (by decide)⟩

/-- C4: for any possibly buffered window request whose (buffered) window
overlaps the raster, `get_data` returns a block whose shape is exactly the
originally requested buffered size `(bands, h + 2*bY, w + 2*bx)`; elements
whose absolute raster pixel lies inside the raster hold the underlying pixel
value and all clipped out-of-bounds elements are exactly zero. -/
theorem get_data_padding_invariant (W H : ℤ) (pix : ℕ → ℤ → ℤ → ℚ) (bands : List ℕ)
    (x y w h bx bY : ℤ)
    (hx : max (x - bx) 0 < min ((x - bx) + (w + 2 * bx)) W)
    (hy : max (y - bY) 0 < min ((y - bY) + (h + 2 * bY)) H) :
    ∃ bl, get_data W H pix bands (x, y, w, h) (some [bx, bY]) .nomask = .ok (bl, none) ∧
      bl.nb = bands.length ∧ bl.rows = h + 2 * bY ∧ bl.cols = w + 2 * bx ∧
      ∀ i r c, 0 ≤ r → r < h + 2 * bY → 0 ≤ c → c < w + 2 * bx →
        bl.val i r c =
          if 0 ≤ (y - bY) + r ∧ (y - bY) + r < H ∧ 0 ≤ (x - bx) + c ∧ (x - bx) + c < W
          then pix (bands.getD i 0) ((y - bY) + r) ((x - bx) + c)
          else 0 := by
  have hok := get_data_ok W H (x - bx) (y - bY) (w + 2 * bx) (h + 2 * bY)
    pix bands .nomask (by omega) (by omega)
  rw [get_data_buffer2]
  refine ⟨_, hok, rfl, ?_, ?_, ?_⟩
  · simp only [padBlock, readClipped]
    omega
  · simp only [padBlock, readClipped]
    omega
  · intro i r c hr0 hr hc0 hc
    simp only [padBlock, readClipped]
    by_cases hin :
        0 ≤ (y - bY) + r ∧ (y - bY) + r < H ∧ 0 ≤ (x - bx) + c ∧ (x - bx) + c < W
    · rw [if_pos (by omega), if_pos hin]
      rw [show max (y - bY) 0 + (r - max (-(y - bY)) 0) = (y - bY) + r by omega,
          show max (x - bx) 0 + (c - max (-(x - bx)) 0) = (x - bx) + c by omega]
    · rw [if_neg (by omega), if_neg hin]

/-- C4 witness: the spec scenario — a `1000 × 1000` single-band raster,
request window `(-5, -5, 20, 20)` (zero buffer): the result has shape
`(1, 20, 20)`, the top 5 rows and left 5 columns are exactly zero, and the
rest is read from raster window `(0, 0, 15, 15)`. -/
theorem get_data_padding_invariant_witness :
    ∃ bl, get_data 1000 1000 (fun b r c => (b : ℚ) + r + c) [1] (-5, -5, 20, 20)
        (some [0, 0]) .nomask = .ok (bl, none) ∧
      bl.nb = 1 ∧ bl.rows = 20 ∧ bl.cols = 20 ∧
      ∀ i r c, 0 ≤ r → r < 20 → 0 ≤ c → c < 20 →
        bl.val i r c =
          if 0 ≤ (-5 : ℤ) + r ∧ (-5 : ℤ) + r < 1000 ∧ 0 ≤ (-5 : ℤ) + c ∧ (-5 : ℤ) + c < 1000
          then (fun (b : ℕ) (r c : ℤ) => (b : ℚ) + r + c) ([1].getD i 0) (-5 + r) (-5 + c)
          else 0 := by
  have := get_data_padding_invariant 1000 1000 (fun b r c => (b : ℚ) + r + c) [1]
    (-5) (-5) 20 20 0 0 (by decide) (by decide)
  simpa using this

/-- C5: in both masking modes (geometry mask, with any burn grid whatever, and
the nonzero-value mask), every returned element that corresponds to padding —
an element whose absolute raster pixel lies outside the raster bounds — is
marked excluded (`true`) by the returned mask and is zero in the data. -/
theorem mask_pad_consistency (W H : ℤ) (pix : ℕ → ℤ → ℤ → ℚ) (bands : List ℕ)
    (x y w h : ℤ) (mode : MaskMode)
    (hmode : (∃ burn, mode = .geomBurn burn) ∨ mode = .nonzero)
    (bl : Block × Option (ℕ → ℤ → ℤ → Bool))
    (hok : get_data W H pix bands (x, y, w, h) none mode = .ok bl)
    (i : ℕ) (r c : ℤ) (_hr0 : 0 ≤ r) (hr : r < bl.1.rows) (_hc0 : 0 ≤ c) (hc : c < bl.1.cols)
    (hout : ¬(0 ≤ y + r ∧ y + r < H ∧ 0 ≤ x + c ∧ x + c < W)) :
    ∃ mk, bl.2 = some mk ∧ mk i r c = true ∧ bl.1.val i r c = 0 := by
  by_cases hwh : min (x + w) W - max x 0 ≤ 0 ∨ min (y + h) H - max y 0 ≤ 0
  · rw [get_data_err W H x y w h pix bands mode hwh] at hok
    exact absurd hok (by simp)
  · push_neg at hwh
    rcases hmode with ⟨burn, hm⟩ | hm <;> subst hm <;>
    · rw [get_data_ok W H x y w h pix bands _ hwh.1 hwh.2] at hok
      simp only [Except.ok.injEq] at hok
      subst hok
      simp only [padBlock, readClipped] at hr hc
      exact ⟨_, rfl, padMaskFun_pad _ _ _ _ _ _ _ _ (by omega),
        padBlock_pad _ _ _ _ _ _ _ _ (by simp only [readClipped]; omega)⟩

/-- C5 witness: a `10 × 10` raster, window `(-2, -2, 5, 5)`, geometry mask
whose burn grid covers everything (so the geometry itself would NOT exclude
anything): the padding element at `(0, 0)` is still excluded and zero. -/
theorem mask_pad_consistency_witness :
    ∃ bl, get_data 10 10 (fun _ _ _ => (1 : ℚ)) [1] (-2, -2, 5, 5) none
        (.geomBurn fun _ _ => true) = .ok bl ∧
      ∃ mk, bl.2 = some mk ∧ mk 0 0 0 = true ∧ bl.1.val 0 0 0 = 0 := by
  have hok := get_data_ok 10 10 (-2) (-2) 5 5 (fun _ _ _ => (1 : ℚ)) [1]
    (.geomBurn fun _ _ => true) (by omega) (by omega)
  refine ⟨_, hok, mask_pad_consistency 10 10 (fun _ _ _ => 1) [1] (-2) (-2) 5 5
    (.geomBurn fun _ _ => true) (Or.inl ⟨_, rfl⟩) _ hok 0 0 0
    (by omega) (by simp [padBlock, readClipped]) (by omega)
    (by simp [padBlock, readClipped]) (by omega)⟩

/-- C6: a window already fully inside the raster bounds is returned unchanged
by the out-of-bounds handling, with zero repair offsets on all four sides, and
`get_data` returns a block of exactly the requested shape whose every element
is the underlying pixel value (no clipping, no padding). -/
theorem window_inside_identity (W H x y w h : ℤ) (pix : ℕ → ℤ → ℤ → ℚ)
    (bands : List ℕ)
    (h1 : 0 ≤ x) (h2 : 0 ≤ y) (h3 : x + w ≤ W) (h4 : y + h ≤ H)
    (h5 : 0 < w) (h6 : 0 < h) :
    resolveWindow W H x y w h = ((x, y, w, h), (0, 0, 0, 0)) ∧
    ∃ bl, get_data W H pix bands (x, y, w, h) none .nomask = .ok (bl, none) ∧
      bl.nb = bands.length ∧ bl.rows = h ∧ bl.cols = w ∧
      ∀ i r c, 0 ≤ r → r < h → 0 ≤ c → c < w →
        bl.val i r c = pix (bands.getD i 0) (y + r) (x + c) := by
  constructor
  · rw [resolveWindow_eq]
    simp only [Prod.mk.injEq]
    omega
  · have hok := get_data_ok W H x y w h pix bands .nomask (by omega) (by omega)
    refine ⟨_, hok, rfl, ?_, ?_, ?_⟩
    · simp only [padBlock, readClipped]
      omega
    · simp only [padBlock, readClipped]
      omega
    · intro i r c hr0 hr hc0 hc
      simp only [padBlock, readClipped]
      rw [if_pos (by omega)]
      rw [show max y 0 + (r - max (-y) 0) = y + r by omega,
          show max x 0 + (c - max (-x) 0) = x + c by omega]

/-- C6 witness: a `100 × 100` raster and the interior window `(10, 10, 5, 5)`:
the resolver returns it unchanged with zero pads and the block has shape
`(1, 5, 5)` with every element read straight from the raster. -/
theorem window_inside_identity_witness :
    resolveWindow 100 100 10 10 5 5 = ((10, 10, 5, 5), (0, 0, 0, 0)) ∧
    ∃ bl, get_data 100 100 (fun b r c => (b : ℚ) + r + c) [1] (10, 10, 5, 5)
        none .nomask = .ok (bl, none) ∧
      bl.nb = 1 ∧ bl.rows = 5 ∧ bl.cols = 5 ∧
      ∀ i r c, 0 ≤ r → r < 5 → 0 ≤ c → c < 5 →
        bl.val i r c = (fun (b : ℕ) (r c : ℤ) => (b : ℚ) + r + c)
          ([1].getD i 0) (10 + r) (10 + c) := by
  have := window_inside_identity 100 100 10 10 5 5 (fun b r c => (b : ℚ) + r + c)
    [1] (by omega) (by omega) (by omega) (by omega) (by omega) (by omega)
  simpa using this

/-- The adjoining-tiles loop of GeoImage.iter_window (base.py lines 425-436),
entered with start offsets `(xoff, yoff)`: yield a window at `(xoff, yoff)`,
step `xoff` by `tw`; when the stepped `xoff` exceeds `W` reset it to `xoff0`
and step `yoff` by `th`; stop when the stepped `yoff` exceeds `H`.  The python
loop is `while True`; the `fuel` argument bounds the iteration count and
`iter_window_fixed` supplies a fuel large enough that it is never exhausted. -/
def tileLoop (W H tw th xoff0 : ℕ) : ℕ → ℕ → ℕ → List (ℕ × ℕ)
  | 0, _, _ => []
  | fuel + 1, xoff, yoff =>
    (xoff, yoff) ::
      (if xoff + tw > W then
        (if yoff + th > H then []
         else tileLoop W H tw th xoff0 fuel xoff0 (yoff + th))
       else tileLoop W H tw th xoff0 fuel (xoff + tw) yoff)

/-- GeoImage.iter_window with only `win_size = (tw, th)` given (base.py lines
359-436): the sequence of yielded window offsets, each passed to `get_data`
as window `(xoff, yoff, tw, th)`.  A non-positive size raises `ValueError`
before the loop; the start offsets center the leftover pixels:
`xoff = (W % tw) / 2` and `yoff = (H % th) / 2`. -/
def iter_window_fixed (W H tw th : ℕ) : Except GdErr (List (ℕ × ℕ)) :=
  if tw = 0 ∨ th = 0 then .error .valueErr
  else .ok (tileLoop W H tw th (W % tw / 2) ((W / tw + 2) * (H / th + 2))
    (W % tw / 2) (H % th / 2))

/-- The closed form of the window-offset sequence produced by
`iter_window_fixed` when the tile sizes divide the raster sizes: all pairs
`(i * tw, j * th)` with `i ≤ W / tw` and `j ≤ H / th`, x varying fastest. -/
def tileGrid (W H tw th : ℕ) : List (ℕ × ℕ) :=
  (List.range (H / th + 1)).flatMap fun j =>
    (List.range (W / tw + 1)).map fun i => (i * tw, j * th)

/-- Window `p` (offsets, with the fixed tile size `(tw, th)`) covers pixel
`q`. -/
def windowCovers (tw th : ℕ) (p q : ℕ × ℕ) : Prop :=
  p.1 ≤ q.1 ∧ q.1 < p.1 + tw ∧ p.2 ≤ q.2 ∧ q.2 < p.2 + th

lemma tileLoop_eq (W H tw th : ℕ) (htw : 0 < tw) (hth : 0 < th)
    (k m : ℕ) (hW : W = k * tw) (hH : H = m * th) :
    ∀ fuel a j, a ≤ k → j ≤ m → (k + 1 - a) + (m - j) * (k + 1) ≤ fuel →
      tileLoop W H tw th 0 fuel (a * tw) (j * th) =
        ((List.range (k + 1 - a)).map fun i => ((a + i) * tw, j * th)) ++
        ((List.range (m - j)).flatMap fun dj =>
          (List.range (k + 1)).map fun i => (i * tw, (j + 1 + dj) * th)) := by
  intro fuel
  induction fuel with
  | zero =>
    intro a j ha hj hfuel
    exfalso
    generalize (m - j) * (k + 1) = P at hfuel
    omega
  | succ fuel ih =>
    intro a j ha hj hfuel
    rcases lt_or_eq_of_le ha with hak | hak
    · have e2 : a * tw + tw = (a + 1) * tw := (Nat.succ_mul a tw).symm
      have hle : (a + 1) * tw ≤ k * tw := mul_le_mul_right' (by omega) tw
      have hb : (k + 1 - (a + 1)) + (m - j) * (k + 1) ≤ fuel := by
        generalize (m - j) * (k + 1) = P at hfuel ⊢
        omega
      have hsplit : ((List.range (k + 1 - a)).map fun i => ((a + i) * tw, j * th)) =
          (a * tw, j * th) ::
            ((List.range (k + 1 - (a + 1))).map fun i => ((a + 1 + i) * tw, j * th)) := by
        rw [show k + 1 - a = (k + 1 - (a + 1)) + 1 by omega, List.range_succ_eq_map]
        simp only [List.map_cons, List.map_map]
        refine congrArg₂ (· :: ·) (by norm_num) ?_
        refine List.map_congr_left fun i _ => ?_
        simp only [Function.comp_apply, Nat.succ_eq_add_one]
        rw [show a + (i + 1) = a + 1 + i by omega]
      simp only [tileLoop]
      rw [if_neg (by rw [e2, hW]; exact not_lt.mpr hle), e2,
        ih (a + 1) j (by omega) hj hb, hsplit, List.cons_append]
    · have hak2 : k = a := hak.symm
      subst hak2
      simp only [tileLoop]
      rw [if_pos (by rw [hW]; exact Nat.lt_add_of_pos_right htw)]
      rcases lt_or_eq_of_le hj with hjm | hjm
      · have e3 : j * th + th = (j + 1) * th := (Nat.succ_mul j th).symm
        have hle2 : (j + 1) * th ≤ m * th := mul_le_mul_right' (by omega) th
        have hb : (k + 1 - 0) + (m - (j + 1)) * (k + 1) ≤ fuel := by
          have e4 : (m - j) * (k + 1) = (m - (j + 1)) * (k + 1) + (k + 1) := by
            rw [show m - j = (m - (j + 1)) + 1 by omega, Nat.succ_mul]
          generalize hQ : (m - (j + 1)) * (k + 1) = Q at e4 ⊢
          generalize hP : (m - j) * (k + 1) = P at e4 hfuel
          omega
        have hgsplit : ((List.range (m - j)).flatMap fun dj =>
              (List.range (k + 1)).map fun i => (i * tw, (j + 1 + dj) * th)) =
            ((List.range (k + 1)).map fun i => (i * tw, (j + 1) * th)) ++
              ((List.range (m - (j + 1))).flatMap fun dj =>
                (List.range (k + 1)).map fun i => (i * tw, (j + 1 + 1 + dj) * th)) := by
          rw [show m - j = (m - (j + 1)) + 1 by omega, List.range_succ_eq_map,
            List.flatMap_cons, List.flatMap_map]
          refine congrArg₂ (· ++ ·) ?_ ?_
          · refine List.map_congr_left fun i _ => ?_
            norm_num
          refine List.flatMap_congr fun dj _ => ?_
          refine List.map_congr_left fun i _ => ?_
          simp only [Function.comp_apply, Nat.succ_eq_add_one]
          rw [show j + 1 + (dj + 1) = j + 1 + 1 + dj by omega]
        rw [if_neg (by rw [e3, hH]; exact not_lt.mpr hle2), e3]
        have hcall := ih 0 (j + 1) (by omega) (by omega) hb
        rw [Nat.zero_mul] at hcall
        simp only [Nat.sub_zero, Nat.zero_add] at hcall
        rw [hcall, hgsplit, show k + 1 - k = 1 by omega,
          show List.range 1 = [0] from rfl]
        simp only [List.map_cons, List.map_nil, List.singleton_append,
          Nat.add_zero, List.cons_append, List.nil_append]
      · have hjm2 : m = j := hjm.symm
        subst hjm2
        rw [if_pos (by rw [hH]; exact Nat.lt_add_of_pos_right hth)]
        rw [show k + 1 - k = 1 by omega, show m - m = 0 by omega,
          show List.range 1 = [0] from rfl]
        simp

/-- The in-bounds windows among the yielded offsets: all `(i * tw, j * th)`
with `i < W / tw` and `j < H / th`. -/
def tileGridIn (W H tw th : ℕ) : List (ℕ × ℕ) :=
  (List.range (H / th)).flatMap fun j =>
    (List.range (W / tw)).map fun i => (i * tw, j * th)

lemma iter_window_fixed_eq (W H tw th : ℕ) (htw : 0 < tw) (hth : 0 < th)
    (hdW : tw ∣ W) (hdH : th ∣ H) :
    iter_window_fixed W H tw th = .ok (tileGrid W H tw th) := by
  obtain ⟨k, hk⟩ := hdW
  obtain ⟨m, hm⟩ := hdH
  have hW : W = k * tw := by rw [hk, Nat.mul_comm]
  have hH : H = m * th := by rw [hm, Nat.mul_comm]
  have hmodW : W % tw = 0 := by rw [hk]; exact Nat.mul_mod_right tw k
  have hmodH : H % th = 0 := by rw [hm]; exact Nat.mul_mod_right th m
  have hdivW : W / tw = k := by rw [hW]; exact Nat.mul_div_cancel k htw
  have hdivH : H / th = m := by rw [hH]; exact Nat.mul_div_cancel m hth
  have hb : (k + 1 - 0) + (m - 0) * (k + 1) ≤ (k + 2) * (m + 2) := by
    simp only [Nat.sub_zero]
    calc k + 1 + m * (k + 1) = (m + 1) * (k + 1) := by ring
      _ ≤ (m + 2) * (k + 2) := Nat.mul_le_mul (by omega) (by omega)
      _ = (k + 2) * (m + 2) := by ring
  have hcall := tileLoop_eq W H tw th htw hth k m hW hH ((k + 2) * (m + 2)) 0 0
    (by omega) (by omega) hb
  simp only [Nat.zero_mul] at hcall
  have hglue : tileGrid W H tw th =
      ((List.range (k + 1 - 0)).map fun i => ((0 + i) * tw, 0 * th)) ++
        ((List.range (m - 0)).flatMap fun dj =>
          (List.range (k + 1)).map fun i => (i * tw, (0 + 1 + dj) * th)) := by
    unfold tileGrid
    rw [hdivW, hdivH, List.range_succ_eq_map, List.flatMap_cons, List.flatMap_map]
    simp only [Nat.sub_zero, Nat.zero_add]
    refine congrArg₂ (· ++ ·) ?_ ?_
    · exact List.map_congr_left fun i _ => by norm_num
    refine List.flatMap_congr fun dj _ => ?_
    refine List.map_congr_left fun i _ => ?_
    simp only [Nat.succ_eq_add_one]
    rw [show dj + 1 = 1 + dj by omega]
  simp only [Nat.zero_mul] at hglue
  unfold iter_window_fixed
  rw [if_neg (by omega), hmodW, hmodH, hdivW, hdivH]
  simp only [Nat.zero_div]
  rw [hcall, hglue]

lemma tileGrid_length (W H tw th : ℕ) :
    (tileGrid W H tw th).length = (W / tw + 1) * (H / th + 1) := by
  unfold tileGrid
  rw [List.length_flatMap]
  simp only [Function.comp_def, List.length_map, List.length_range, List.map_const',
    List.sum_replicate, smul_eq_mul]
  ring

lemma tileGridIn_length (W H tw th : ℕ) :
    (tileGridIn W H tw th).length = (W / tw) * (H / th) := by
  unfold tileGridIn
  rw [List.length_flatMap]
  simp only [Function.comp_def, List.length_map, List.length_range, List.map_const',
    List.sum_replicate, smul_eq_mul]
  ring

lemma tileGrid_filter (W H tw th : ℕ) (htw : 0 < tw) (hth : 0 < th)
    (k m : ℕ) (hW : W = k * tw) (hH : H = m * th) :
    (tileGrid W H tw th).filter (fun p => decide (p.1 < W ∧ p.2 < H)) =
      tileGridIn W H tw th := by
  have hdivW : W / tw = k := by rw [hW]; exact Nat.mul_div_cancel k htw
  have hdivH : H / th = m := by rw [hH]; exact Nat.mul_div_cancel m hth
  unfold tileGrid tileGridIn
  rw [hdivW, hdivH, List.filter_flatMap, List.range_succ, List.flatMap_append]
  have hlast : (List.flatMap [m] fun j =>
      ((List.range (k + 1)).map fun i => (i * tw, j * th)).filter
        (fun p => decide (p.1 < W ∧ p.2 < H))) = [] := by
    simp only [List.flatMap_cons, List.flatMap_nil, List.append_nil]
    refine List.filter_eq_nil_iff.mpr fun a ha => ?_
    obtain ⟨i, _, rfl⟩ := List.mem_map.mp ha
    simp [hH]
  rw [hlast, List.append_nil]
  refine List.flatMap_congr fun j hj => ?_
  have hjm : j < m := List.mem_range.mp hj
  rw [List.filter_map]
  have hpred : ((List.range (k + 1)).filter
      ((fun p => decide (p.1 < W ∧ p.2 < H)) ∘ fun i => (i * tw, j * th))) =
      List.range k := by
    have hcong : ∀ i ∈ List.range (k + 1),
        ((fun p => decide (p.1 < W ∧ p.2 < H)) ∘ fun i => (i * tw, j * th)) i =
          decide (i < k) := by
      intro i _
      simp only [Function.comp_apply, decide_eq_decide]
      constructor
      · intro hand
        have := hand.1
        rw [hW] at this
        exact lt_of_mul_lt_mul_right this (Nat.zero_le tw)
      · intro hik
        constructor
        · rw [hW]
          exact (mul_lt_mul_right htw).mpr hik
        · rw [hH]
          exact (mul_lt_mul_right hth).mpr hjm
    rw [List.filter_congr hcong, List.range_succ, List.filter_append]
    have h1 : (List.range k).filter (fun i => decide (i < k)) = List.range k :=
      List.filter_eq_self.mpr fun i hi => by
        simpa using List.mem_range.mp hi
    have h2 : ([k].filter fun i => decide (i < k)) = [] := by simp
    rw [h1, h2, List.append_nil]
  rw [hpred]

lemma tileGridIn_cover (W H tw th : ℕ) (htw : 0 < tw) (hth : 0 < th)
    (k m : ℕ) (hW : W = k * tw) (hH : H = m * th) (q : ℕ × ℕ)
    (hqx : q.1 < W) (hqy : q.2 < H) :
    ∃ p ∈ tileGridIn W H tw th, windowCovers tw th p q ∧
      ∀ p2 ∈ tileGridIn W H tw th, windowCovers tw th p2 q → p2 = p := by
  have hdivW : W / tw = k := by rw [hW]; exact Nat.mul_div_cancel k htw
  have hdivH : H / th = m := by rw [hH]; exact Nat.mul_div_cancel m hth
  obtain ⟨qx, qy⟩ := q
  refine ⟨(qx / tw * tw, qy / th * th), ?_, ?_, ?_⟩
  · unfold tileGridIn
    rw [hdivW, hdivH]
    simp only [List.mem_flatMap, List.mem_map, List.mem_range]
    exact ⟨qy / th, (Nat.div_lt_iff_lt_mul hth).mpr (by rw [← hH]; exact hqy),
      qx / tw, (Nat.div_lt_iff_lt_mul htw).mpr (by rw [← hW]; exact hqx), rfl⟩
  · exact ⟨Nat.div_mul_le_self qx tw, Nat.lt_div_mul_add htw,
      Nat.div_mul_le_self qy th, Nat.lt_div_mul_add hth⟩
  · intro p2 hp2 hcov
    unfold tileGridIn at hp2
    rw [hdivW, hdivH] at hp2
    simp only [List.mem_flatMap, List.mem_map, List.mem_range] at hp2
    obtain ⟨j, _, i, _, rfl⟩ := hp2
    simp only [windowCovers] at hcov
    obtain ⟨h1, h2, h3, h4⟩ := hcov
    have e1 : qx / tw = i := Nat.div_eq_of_lt_le h1 (by rw [Nat.succ_mul]; exact h2)
    have e2 : qy / th = j := Nat.div_eq_of_lt_le h3 (by rw [Nat.succ_mul]; exact h4)
    rw [e1, e2]

/-- C2 counterexample: a `100 × 100` raster with `win_size = (50, 50)` does
not yield 4 windows: the loop conditions use strict comparisons
(`xoff > shape`), so after the windows at offset 50 the loop also yields
windows starting exactly at offset 100 (the raster edge, zero pixels of
overlap) in each axis — 9 windows in all. -/
theorem iter_window_fixed_100_cex :
    iter_window_fixed 100 100 50 50 =
      .ok [(0, 0), (50, 0), (100, 0), (0, 50), (50, 50), (100, 50),
           (0, 100), (50, 100), (100, 100)] ∧
    ([(0, 0), (50, 0), (100, 0), (0, 50), (50, 50), (100, 50),
      (0, 100), (50, 100), (100, 100)] : List (ℕ × ℕ)).length ≠ 4 := by
  exact ⟨rfl, by decide⟩

/-- C2 (amended): fixed-size adjoining tiling over `W × H` with tile
`(tw, th)`, `tw ∣ W` and `th ∣ H`, yields exactly `(W/tw + 1) * (H/th + 1)`
windows — offsets `(i*tw, j*th)` for `i ≤ W/tw`, `j ≤ H/th`, x varying
fastest — one extra column and row of windows starting exactly at `x = W`
resp. `y = H` beyond the claim's count; the `(W/tw) * (H/th)` windows whose
offsets lie inside the raster tile it exactly: every raster pixel is covered
by exactly one of them (zero overlap and zero gap). -/
theorem iter_window_fixed_tiling_amended (W H tw th : ℕ) (htw : 0 < tw)
    (hth : 0 < th) (hdW : tw ∣ W) (hdH : th ∣ H) :
    iter_window_fixed W H tw th = .ok (tileGrid W H tw th) ∧
    (tileGrid W H tw th).length = (W / tw + 1) * (H / th + 1) ∧
    (tileGrid W H tw th).filter (fun p => decide (p.1 < W ∧ p.2 < H)) =
      tileGridIn W H tw th ∧
    (tileGridIn W H tw th).length = (W / tw) * (H / th) ∧
    ∀ q : ℕ × ℕ, q.1 < W → q.2 < H →
      ∃ p ∈ tileGridIn W H tw th, windowCovers tw th p q ∧
        ∀ p2 ∈ tileGridIn W H tw th, windowCovers tw th p2 q → p2 = p := by
  obtain ⟨k, hk⟩ := id hdW
  obtain ⟨m, hm⟩ := id hdH
  have hW : W = k * tw := by rw [hk, Nat.mul_comm]
  have hH : H = m * th := by rw [hm, Nat.mul_comm]
  exact ⟨iter_window_fixed_eq W H tw th htw hth hdW hdH,
    tileGrid_length W H tw th,
    tileGrid_filter W H tw th htw hth k m hW hH,
    tileGridIn_length W H tw th,
    fun q hqx hqy => tileGridIn_cover W H tw th htw hth k m hW hH q hqx hqy⟩

/-- C2 witness: the amended theorem applied to the spec scenario raster
(`100 × 100`, tile `(50, 50)`). -/
theorem iter_window_fixed_tiling_amended_witness :
    (0 : ℕ) < 50 ∧ (50 : ℕ) ∣ 100 ∧
    (iter_window_fixed 100 100 50 50 = .ok (tileGrid 100 100 50 50) ∧
     (tileGrid 100 100 50 50).length = (100 / 50 + 1) * (100 / 50 + 1) ∧
     (tileGrid 100 100 50 50).filter (fun p => decide (p.1 < 100 ∧ p.2 < 100)) =
       tileGridIn 100 100 50 50 ∧
     (tileGridIn 100 100 50 50).length = 100 / 50 * (100 / 50) ∧
     ∀ q : ℕ × ℕ, q.1 < 100 → q.2 < 100 →
       ∃ p ∈ tileGridIn 100 100 50 50, windowCovers 50 50 p q ∧
         ∀ p2 ∈ tileGridIn 100 100 50 50, windowCovers 50 50 p2 q → p2 = p) :=
  ⟨by decide, by decide,
   iter_window_fixed_tiling_amended 100 100 50 50 (by decide) (by decide)
     (by decide) (by decide)⟩

/-- Outcomes of one `get_data(geom=...)` call as seen by `iter_vector`:
success carries the pixel data (abstracted to one value), `overlapErr` is the
`OverlapError` of a non-overlapping feature, `readErr` stands for any other
exception (e.g. an I/O failure), which the iterator does not catch. -/
inductive VErr where
  | overlapErr
  | readErr
deriving DecidableEq

/-- A vector feature: its attribute set (`feat.items()`), keys and values
abstracted to numbers.  The geometry itself is implicit in the per-feature
`get_data` outcome supplied to `iter_vector`. -/
structure Feat where
  props : List (ℕ × ℕ)
deriving DecidableEq

/-- The filter test of `iter_vector` (base.py lines 576-610):
`any(prop_test.get(d.keys()[0], None) == d.values()[0] for d in filter)` with
the filter already normalised to a list of key/value pairs. -/
def featMatches (filt : List (ℕ × ℕ)) (f : Feat) : Bool :=
  filt.any fun kv => f.props.lookup kv.1 == some kv.2

/-- One step of `iter_vector` for a single feature (base.py lines 552-628,
with `properties=False`): a feature suppressed by the filter yields the `None`
placeholder; otherwise `get_data` is called on the reprojected geometry, a
caught `OverlapError` yields `None`, and any other exception propagates and
aborts the generator. -/
def vecStep (gd : Feat → Except VErr ℚ) (filt : Option (List (ℕ × ℕ)))
    (f : Feat) : Except VErr (Option ℚ) :=
  match filt with
  | some fl =>
    if featMatches fl f then
      match gd f with
      | .ok d => .ok (some d)
      | .error .overlapErr => .ok none
      | .error e => .error e
    else .ok none
  | none =>
    match gd f with
    | .ok d => .ok (some d)
    | .error .overlapErr => .ok none
    | .error e => .error e

/-- The value `vecStep` yields when it does not abort. -/
def vecStepPure (gd : Feat → Except VErr ℚ) (filt : Option (List (ℕ × ℕ)))
    (f : Feat) : Option ℚ :=
  match filt with
  | some fl =>
    if featMatches fl f then
      match gd f with
      | .ok d => some d
      | .error _ => none
    else none
  | none =>
    match gd f with
    | .ok d => some d
    | .error _ => none

/-- GeoImage.iter_vector (base.py lines 525-628) over a feature list: the
sequence of yielded values (`some data` or the `None` placeholder), aborting
only when an uncaught exception escapes a step. -/
def iter_vector (gd : Feat → Except VErr ℚ) (filt : Option (List (ℕ × ℕ))) :
    List Feat → Except VErr (List (Option ℚ))
  | [] => .ok []
  | f :: fs =>
    match vecStep gd filt f with
    | .error e => .error e
    | .ok v =>
      match iter_vector gd filt fs with
      | .error e => .error e
      | .ok l => .ok (v :: l)

lemma vecStep_eq (gd : Feat → Except VErr ℚ) (filt : Option (List (ℕ × ℕ)))
    (f : Feat) (hre : gd f ≠ .error .readErr) :
    vecStep gd filt f = .ok (vecStepPure gd filt f) := by
  cases filt with
  | none =>
    simp only [vecStep, vecStepPure]
    cases hgd : gd f with
    | ok d => rfl
    | error e => cases e with
      | overlapErr => rfl
      | readErr => exact absurd hgd hre
  | some fl =>
    simp only [vecStep, vecStepPure]
    by_cases hm : featMatches fl f
    · rw [if_pos hm, if_pos hm]
      cases hgd : gd f with
      | ok d => rfl
      | error e => cases e with
        | overlapErr => rfl
        | readErr => exact absurd hgd hre
    · rw [if_neg hm, if_neg hm]

/-- C8: per-vector-feature iteration never propagates `OverlapError` and keeps
the yielded sequence aligned with the source features: as long as no feature
fails with an uncaught exception, the iteration succeeds, yields exactly one
entry per source feature, a feature whose geometry does not overlap the raster
(caught `OverlapError`) contributes the `None` placeholder, and a feature
suppressed by the property-value filter also contributes the placeholder. -/
theorem iter_vector_placeholder (gd : Feat → Except VErr ℚ)
    (filt : Option (List (ℕ × ℕ))) (feats : List Feat)
    (hre : ∀ f ∈ feats, gd f ≠ .error .readErr) :
    iter_vector gd filt feats = .ok (feats.map (vecStepPure gd filt)) ∧
    (feats.map (vecStepPure gd filt)).length = feats.length ∧
    ∀ f ∈ feats,
      (gd f = .error .overlapErr → vecStepPure gd filt f = none) ∧
      (∀ fl, filt = some fl → featMatches fl f = false →
        vecStepPure gd filt f = none) := by
  refine ⟨?_, List.length_map _ _, ?_⟩
  · induction feats with
    | nil => rfl
    | cons f fs ih =>
      have h1 := vecStep_eq gd filt f (hre f (by simp))
      have h2 := ih fun g hg => hre g (by simp [hg])
      simp only [iter_vector, h1, h2, List.map_cons]
  · intro f _
    constructor
    · intro hov
      cases filt with
      | none => simp [vecStepPure, hov]
      | some fl =>
        by_cases hm : featMatches fl f <;> simp [vecStepPure, hov, hm]
    · intro fl hfl hnm
      subst hfl
      simp [vecStepPure, hnm]

/-- C8 witness: two features on a layer — the first overlaps and reads fine,
the second's geometry misses the raster (`OverlapError`), a third is
suppressed by the filter; the iteration yields exactly three entries:
`some 5`, `none`, `none`. -/
theorem iter_vector_placeholder_witness :
    iter_vector
        (fun f => if f.props = [(1, 1)] then .ok 5
                  else if f.props = [(1, 2)] then .error .overlapErr
                  else .ok 7)
        (some [(1, 1), (2, 9)])
        [⟨[(1, 1)]⟩, ⟨[(1, 2)]⟩, ⟨[(3, 3)]⟩] =
      .ok [some 5, none, none] := by
  have h := iter_vector_placeholder
    (fun f => if f.props = [(1, 1)] then .ok 5
              else if f.props = [(1, 2)] then .error .overlapErr
              else .ok 7)
    (some [(1, 1), (2, 9)])
    [⟨[(1, 1)]⟩, ⟨[(1, 2)]⟩, ⟨[(3, 3)]⟩]
    (by decide)
  rw [h.1]
  rfl

/-- Python list indexing as used by `self.files.dfile_tiles[component-1]`
(base.py line 903): non-negative indices address from the front, negative
indices address from the end, anything out of range raises `IndexError`
(modelled as `none`). -/
def pyIndex (l : List ℕ) (i : ℤ) : Option ℕ :=
  if 0 ≤ i then l.get? i.toNat
  else
    let j := (l.length : ℤ) + i
    if 0 ≤ j then l.get? j.toNat else none

/-- Errors of the component-selection logic of `get_data` (base.py lines
895-906). -/
inductive CompErr where
  | basedOneErr
  | rangeErr
  | indexErr
deriving DecidableEq

/-- The component handling of GeoImage.get_data (base.py lines 895-906):
`component == 0` raises (components are 1-based), `component` greater than
the number of tiles raises, and otherwise the tile file at python index
`component - 1` is opened as its own independent raster handle (the requested
window is then resolved against that handle).  Tiles are abstracted to
numeric identifiers. -/
def selectComponent (tiles : List ℕ) (component : ℤ) : Except CompErr ℕ :=
  if component = 0 then .error .basedOneErr
  else if component > (tiles.length : ℤ) then .error .rangeErr
  else
    match pyIndex tiles (component - 1) with
    | some t => .ok t
    | none => .error .indexErr

/-- Errors of a component-selecting `get_data` call: a component-validation
error, or an error from the windowed read itself. -/
inductive CompReadErr where
  | comp (e : CompErr)
  | readPath (e : GdErr)
deriving DecidableEq

/-- GeoImage.get_data with a component selected (base.py lines 895-906 and
961-1094): the sub-file at the 1-based component index is opened as its own
raster handle (`y = GeoImage(self.files.dfile_tiles[component-1]);
obj = y._fobj`) and the per-band `ReadAsArray` calls address THAT handle, so
the requested window's offsets are relative to the component's own pixel
grid, not the mosaic's.  The out-of-bounds handling, however, keeps using
`self.meta.shape` (base.py lines 980-987) — the MOSAIC's dimensions `W × H` —
even when a component is selected, which is what the `W H` arguments passed
through to `get_data` model.  `pixOf t` is the per-band pixel function of
tile `t`'s own handle. -/
def get_data_component (W H : ℤ) (tiles : List ℕ) (pixOf : ℕ → ℕ → ℤ → ℤ → ℚ)
    (bands : List ℕ) (component : ℤ) (window : ℤ × ℤ × ℤ × ℤ)
    (buffer : Option (List ℤ)) (mode : MaskMode) :
    Except CompReadErr (Block × Option (ℕ → ℤ → ℤ → Bool)) :=
  match selectComponent tiles component with
  | .error e => .error (.comp e)
  | .ok t =>
    match get_data W H (pixOf t) bands window buffer mode with
    | .error e => .error (.readPath e)
    | .ok bl => .ok bl

/-- C9 counterexample: component `-1` on a three-tile image raises no
invalid-component error at all — python's negative indexing silently opens the
second tile (`tiles[-2]`). -/
theorem component_negative_cex :
    selectComponent [7, 8, 9] (-1) = .ok 8 := by decide

/-- C9 (amended): the component argument is 1-based: component 0 raises, as
does a component greater than the number available, and a valid index
`1 ≤ c ≤ n` opens the tile at index `c - 1` independently as its own raster
handle and performs the windowed read against that handle — the window's
offsets address the component's own pixel grid (the read delivers `pixOf t`
pixels at the window offsets), while the out-of-bounds clipping bounds still
come from the MOSAIC's shape `W × H`; but negative components are NOT
validated: they address tiles from the end of the list (`c = -1` opens tile
`n - 2` when it exists) and raise a bare `IndexError` otherwise. -/
theorem component_selection_amended (W H : ℤ) (tiles : List ℕ) (c : ℤ) :
    (c = 0 → selectComponent tiles c = .error .basedOneErr) ∧
    (c > (tiles.length : ℤ) → selectComponent tiles c = .error .rangeErr) ∧
    (1 ≤ c → c ≤ (tiles.length : ℤ) →
      ∃ t, tiles.get? (c - 1).toNat = some t ∧ selectComponent tiles c = .ok t) ∧
    (c < 0 → 0 ≤ (tiles.length : ℤ) + (c - 1) →
      ∃ t, tiles.get? ((tiles.length : ℤ) + (c - 1)).toNat = some t ∧
        selectComponent tiles c = .ok t) ∧
    (c < 0 → (tiles.length : ℤ) + (c - 1) < 0 →
      selectComponent tiles c = .error .indexErr) ∧
    (∀ (pixOf : ℕ → ℕ → ℤ → ℤ → ℚ) (bands : List ℕ) (window : ℤ × ℤ × ℤ × ℤ)
      (buffer : Option (List ℤ)) (mode : MaskMode) (t : ℕ)
      (bl : Block × Option (ℕ → ℤ → ℤ → Bool)),
      selectComponent tiles c = .ok t →
      get_data W H (pixOf t) bands window buffer mode = .ok bl →
      get_data_component W H tiles pixOf bands c window buffer mode = .ok bl) ∧
    (∀ (pixOf : ℕ → ℕ → ℤ → ℤ → ℚ) (bands : List ℕ) (x y w h : ℤ) (t : ℕ),
      selectComponent tiles c = .ok t →
      max x 0 < min (x + w) W → max y 0 < min (y + h) H →
      ∃ bl, get_data_component W H tiles pixOf bands c (x, y, w, h) none .nomask =
          .ok (bl, none) ∧
        bl.nb = bands.length ∧ bl.rows = h ∧ bl.cols = w ∧
        ∀ i r c2, 0 ≤ r → r < h → 0 ≤ c2 → c2 < w →
          bl.val i r c2 =
            if 0 ≤ y + r ∧ y + r < H ∧ 0 ≤ x + c2 ∧ x + c2 < W
            then pixOf t (bands.getD i 0) (y + r) (x + c2)
            else 0) := by
  refine ⟨?_, ?_, ?_, ?_, ?_, ?_, ?_⟩
  · intro h0
    simp [selectComponent, h0]
  · intro hgt
    rw [selectComponent, if_neg (by omega), if_pos hgt]
  · intro h1 h2
    have hidx : (c - 1).toNat < tiles.length := by omega
    cases hget : tiles.get? (c - 1).toNat with
    | none =>
      exact absurd (List.get?_eq_none.mp hget) (by omega)
    | some t =>
      refine ⟨t, rfl, ?_⟩
      rw [selectComponent, if_neg (by omega), if_neg (by omega), pyIndex,
        if_pos (by omega), hget]
  · intro hneg hok
    have hidx : ((tiles.length : ℤ) + (c - 1)).toNat < tiles.length := by omega
    cases hget : tiles.get? ((tiles.length : ℤ) + (c - 1)).toNat with
    | none =>
      exact absurd (List.get?_eq_none.mp hget) (by omega)
    | some t =>
      refine ⟨t, rfl, ?_⟩
      rw [selectComponent, if_neg (by omega), if_neg (by omega), pyIndex,
        if_neg (by omega)]
      simp only
      rw [if_pos (by omega), hget]
  · intro hneg hbad
    rw [selectComponent, if_neg (by omega), if_neg (by omega), pyIndex,
      if_neg (by omega)]
    simp only
    rw [if_neg (by omega)]
  · intro pixOf bands window buffer mode t bl hsel hread
    simp only [get_data_component, hsel, hread]
  · intro pixOf bands x y w h t hsel hx hy
    obtain ⟨bl, hbl, h1, h2, h3, h4⟩ :=
      get_data_nomask_spec W H x y w h (pixOf t) bands hx hy
    refine ⟨bl, ?_, h1, h2, h3, h4⟩
    simp only [get_data_component, hsel, hbl]

/-- C9 witness: the amended theorem applied concretely on a three-tile image
inside a `100 × 100` mosaic: component 0 raises, component 4 raises,
component 2 opens the second tile, and a read of window `(95, 0, 10, 5)`
through component 2 returns that component's own pixels (here the constant
tile id `8`) at the window offsets, zero-padded where the window passes the
mosaic's right edge. -/
theorem component_selection_amended_witness :
    selectComponent [7, 8, 9] 0 = .error .basedOneErr ∧
    selectComponent [7, 8, 9] 4 = .error .rangeErr ∧
    (∃ t, [7, 8, 9].get? ((2 : ℤ) - 1).toNat = some t ∧
      selectComponent [7, 8, 9] 2 = .ok t) ∧
    (∃ bl, get_data_component 100 100 [7, 8, 9] (fun t _ _ _ => (t : ℚ)) [1] 2
          (95, 0, 10, 5) none .nomask = .ok (bl, none) ∧
      bl.nb = 1 ∧ bl.rows = 5 ∧ bl.cols = 10 ∧
      ∀ i r c2, 0 ≤ r → r < 5 → 0 ≤ c2 → c2 < 10 →
        bl.val i r c2 =
          if 0 ≤ (0 : ℤ) + r ∧ (0 : ℤ) + r < 100 ∧
              0 ≤ (95 : ℤ) + c2 ∧ (95 : ℤ) + c2 < 100
          then (8 : ℚ)
          else 0) :=
  ⟨(component_selection_amended 100 100 [7, 8, 9] 0).1 rfl,
   (component_selection_amended 100 100 [7, 8, 9] 4).2.1 (by decide),
   (component_selection_amended 100 100 [7, 8, 9] 2).2.2.1 (by decide) (by decide),
   (component_selection_amended 100 100 [7, 8, 9] 2).2.2.2.2.2.2
     (fun t _ _ _ => (t : ℚ)) [1] 95 0 10 5 8 (by decide) (by decide) (by decide)⟩

/-- A pixel value as numpy sees it while writing: `NaN`, `+inf`, `-inf`, or an
ordinary number. -/
inductive PyVal where
  | nan
  | inf
  | ninf
  | num (q : ℚ)
deriving DecidableEq

/-- The `data_np_array[np.isnan(data_np_array)] = NDV` assignment of
create_geo_image (base.py line 1391). -/
def replaceNaN (ndv : ℚ) (a : List PyVal) : List PyVal :=
  a.map fun v => if v = .nan then .num ndv else v

/-- The `data_np_array[np.isinf(data_np_array)] = NDV` assignment of
create_geo_image (base.py line 1392); `np.isinf` is true for both infinities. -/
def replaceInf (ndv : ℚ) (a : List PyVal) : List PyVal :=
  a.map fun v => if v = .inf ∨ v = .ninf then .num ndv else v

/-- The array side effect of create_geo_image (base.py lines 1388-1399),
restricted to the pixel values (flattened): when a no-data value is in effect
(`NDV` defaults to `0` in the signature) the NaN/Inf replacement is performed
by fancy-indexed assignment INTO the argument array itself — and the 2-D
promotion `data_np_array[np.newaxis, :, :]` is a numpy view, not a copy — so
the caller's array object aliases the array being written.  The result pair is
`(bands written to the file, the caller's array after the call)`. -/
def create_geo_image_arr (NDV : Option ℚ) (arr : List PyVal) :
    List PyVal × List PyVal :=
  match NDV with
  | none => (arr, arr)
  | some v =>
    let a := replaceInf v (replaceNaN v arr)
    (a, a)

/-- GeoImage.write_img_like_this (base.py lines 1145-1188): delegates to
create_geo_image with `NDV = self.meta.no_data_value`, passing the caller's
`np_array` through. -/
def write_img_like_this_arr (noDataValue : Option ℚ) (arr : List PyVal) :
    List PyVal × List PyVal :=
  create_geo_image_arr noDataValue arr

/-- C10: when a no-data value is in effect, create_geo_image — and therefore
write_img_like_this — replaces NaN and infinite values by assigning into the
caller's array itself: after the call the caller's array holds the replaced
values (second component), not its original contents; the concrete instance
shows the observable mutation for `NDV = 0` (create_geo_image's default). -/
theorem create_geo_image_mutates_input :
    (∀ v arr, (create_geo_image_arr (some v) arr).2 =
        replaceInf v (replaceNaN v arr) ∧
      (write_img_like_this_arr (some v) arr).2 =
        replaceInf v (replaceNaN v arr)) ∧
    (create_geo_image_arr (some 0) [.nan, .num 3, .inf, .ninf]).2 =
      [.num 0, .num 3, .num 0, .num 0] ∧
    (create_geo_image_arr (some 0) [.nan, .num 3, .inf, .ninf]).2 ≠
      [.nan, .num 3, .inf, .ninf] := by
  refine ⟨fun v arr => ⟨rfl, rfl⟩, by decide, by decide⟩

end Geoio
